import Mathlib

/-!
Shallow embedding of the Live.py schedule-normalization pipeline.

Strings are modelled as lists of characters; the character case
functions follow the ASCII behaviour of the CPython operations used by
the script on feed data.  Each definition mirrors one function or code
region of src/Live.py; the top-level run is modelled as a fold over the
schedule document that returns an Except value, the error case standing
for an uncaught Python exception.
-/

namespace LivePy

/-- Characters treated as whitespace by the str.strip and str.split
operations and by the regex class backslash-s (ASCII range). -/
def isPySpace (c : Char) : Bool :=
  c = ' ' || c = '\t' || c = '\n' || c = '\r' || c = Char.ofNat 11 || c = Char.ofNat 12

/-- Word characters for the regex word-boundary assertion. -/
def isWordChar (c : Char) : Bool :=
  c.isAlphanum || c = '_'

/-- Models str.strip with no arguments: remove leading and trailing
whitespace. -/
def pyStrip (s : List Char) : List Char :=
  ((s.dropWhile isPySpace).reverse.dropWhile isPySpace).reverse

/-- Models str.strip applied with a single strip character. -/
def pyStripChar (t : Char) (s : List Char) : List Char :=
  ((s.dropWhile (fun c => c = t)).reverse.dropWhile (fun c => c = t)).reverse

/-- One right-fold step of the whitespace split: a space opens a new
field, any other character extends the current one. -/
def splitWsStep (c : Char) (acc : List (List Char)) : List (List Char) :=
  if isPySpace c then [] :: acc
  else
    match acc with
    | w :: ws => (c :: w) :: ws
    | [] => [[c]]

/-- Models str.split with no arguments: split on whitespace runs,
dropping empty fields. -/
def pySplitWs (s : List Char) : List (List Char) :=
  (s.foldr splitWsStep []).filter (fun w => w ≠ [])

/-- Models str.split with a one-character separator (all fields kept,
empty fields included). -/
def pySplitChar (sep : Char) : List Char → List (List Char)
  | [] => [[]]
  | c :: rest =>
    if c = sep then [] :: pySplitChar sep rest
    else
      match pySplitChar sep rest with
      | w :: ws => (c :: w) :: ws
      | [] => [[c]]

/-- Fuel-indexed scanner behind pyReplace; the fuel bounds the number of
characters still to be examined, so the recursion is structural and the
function evaluates inside the kernel. -/
def pyReplaceF (pat repl : List Char) : Nat → List Char → List Char
  | 0, s => s
  | _ + 1, [] => []
  | f + 1, c :: rest =>
    if pat ≠ [] ∧ pat.isPrefixOf (c :: rest) then
      repl ++ pyReplaceF pat repl f (rest.drop (pat.length - 1))
    else c :: pyReplaceF pat repl f rest

/-- Models str.replace for a nonempty pattern: leftmost, non-overlapping
replacement of every occurrence. -/
def pyReplace (pat repl s : List Char) : List Char :=
  pyReplaceF pat repl s.length s

/-- Case-insensitive prefix test: the pattern is given lower-cased and is
compared against the lower-cased input, as the regex IGNORECASE flag does
for the ASCII patterns of Live.py. -/
def ciPrefixOf (pat s : List Char) : Bool :=
  pat.isPrefixOf (s.map Char.toLower)

/-- True when the character list is empty or starts with a non-word
character: the condition the word-boundary assertion checks after a
match that ends in a word character. -/
def boundaryAt : List Char → Bool
  | [] => true
  | c :: _ => !isWordChar c

/-- Search for a whole-word, case-insensitive occurrence of a pattern
whose first and last characters are word characters; models the
re.search of a backslash-b delimited alternative with IGNORECASE.  The
boolean argument records whether the previous character was a word
character. -/
def containsTokenCIGo (tok : List Char) : Bool → List Char → Bool
  | _, [] => false
  | prevWord, c :: rest =>
    (!prevWord && ciPrefixOf tok (c :: rest) && boundaryAt ((c :: rest).drop tok.length))
    || containsTokenCIGo tok (isWordChar c) rest

/-- Whole-word case-insensitive containment, starting at a string
boundary. -/
def containsTokenCI (tok s : List Char) : Bool :=
  containsTokenCIGo tok false s

/-- Plain case-insensitive substring search (no word boundaries), as in
the Salernitana regex of build_logo. -/
def containsSubstrCI (pat : List Char) : List Char → Bool
  | [] => pat.isEmpty
  | c :: rest => ciPrefixOf pat (c :: rest) || containsSubstrCI pat rest

/-- Case-sensitive substring search, used to state absence of the
plus-zero-offset suffix in output timestamps. -/
def containsSubstr (pat : List Char) : List Char → Bool
  | [] => pat.isEmpty
  | c :: rest => pat.isPrefixOf (c :: rest) || containsSubstr pat rest

/-- Decimal digit characters as explicit constructors, so that facts
about rendered numerals reduce by cases. -/
def digitChar : Nat → Char
  | 0 => '0' | 1 => '1' | 2 => '2' | 3 => '3' | 4 => '4'
  | 5 => '5' | 6 => '6' | 7 => '7' | 8 => '8' | 9 => '9'
  | _ => '0'

/-- Fuel-indexed decimal rendering; the fuel bounds the number of
digits. -/
def natDigitsF : Nat → Nat → List Char
  | 0, _ => []
  | f + 1, n =>
    if n < 10 then [digitChar n]
    else natDigitsF f (n / 10) ++ [digitChar (n % 10)]

/-- Decimal rendering of a natural number, matching the str() form used
by strftime and f-strings for the nonnegative values that occur here. -/
def natDigits (n : Nat) : List Char :=
  natDigitsF (n + 1) n

/-- Zero-pad a rendered natural to at least two characters, as the
strftime and isoformat two-digit fields do. -/
def pad2 (n : Nat) : List Char :=
  List.replicate (2 - (natDigits n).length) '0' ++ natDigits n

/-- Zero-pad a rendered natural to at least four characters, as the
isoformat and strftime year fields do. -/
def pad4 (n : Nat) : List Char :=
  List.replicate (4 - (natDigits n).length) '0' ++ natDigits n

/-- Models str() applied to a Python int, including the sign for
negative values. -/
def pyStrOfInt (n : Int) : List Char :=
  if n < 0 then '-' :: natDigits n.natAbs else natDigits n.natAbs

/-- Digit-run to value, used by the int() model. -/
def digitsVal (ds : List Char) : Nat :=
  ds.foldl (fun a c => a * 10 + (c.toNat - 48)) 0

/-- Models int() applied to a stripped ASCII decimal literal: optional
sign followed by a nonempty digit run; anything else raises, modelled as
none. -/
def pyIntParse (s : List Char) : Option Int :=
  let t := pyStrip s
  match t with
  | '+' :: ds => if ds ≠ [] ∧ ds.all Char.isDigit then some (digitsVal ds) else none
  | '-' :: ds => if ds ≠ [] ∧ ds.all Char.isDigit then some (-(digitsVal ds : Int)) else none
  | ds => if ds ≠ [] ∧ ds.all Char.isDigit then some (digitsVal ds) else none

/-- Python truthiness of an optional int combined with a default, as in
the expressions value-or-default of parse_event_datetime: none and zero
both select the default. -/
def pyOrInt (o : Option Int) (d : Nat) : Int :=
  match o with
  | some v => if v = 0 then (d : Int) else v
  | none => (d : Int)

/-- The fixed logo repository base URL of Live.py. -/
def LOGO_BASE : List Char :=
  "https://raw.githubusercontent.com/qwertyuiop8899/logo/main".toList

/-- Channel exclusion keywords of Live.py. -/
def EXCLUDE_KEYWORDS_CHANNEL : List (List Char) :=
  ["college".toList, "youth".toList]

/-- The whitelist of category labels of Live.py. -/
def BASE_CATEGORIES : List (List Char) :=
  ["Italy - Serie A".toList, "Italy - Serie B".toList, "Italy - Serie C".toList,
   "UEFA Champions League".toList, "UEFA Europa League".toList,
   "Conference League".toList, "Coppa Italia".toList,
   "Tennis".toList, "motor sports".toList, "motorsports".toList]

/-- Cup-competition logo table of Live.py. -/
def COPPA_LOGOS : List (List Char × List Char) :=
  [("UEFA Champions League".toList, "UEFA_Champions_League.png".toList),
   ("UEFA Europa League".toList, "UEFA_Europa_League.png".toList),
   ("Conference League".toList, "Conference_League.png".toList),
   ("Coppa Italia".toList, "Coppa_Italia.png".toList)]

/-- The twelve-entry month-name table of Live.py, matched
case-sensitively. -/
def MONTHS : List (List Char × Nat) :=
  [("January".toList, 1), ("February".toList, 2), ("March".toList, 3),
   ("April".toList, 4), ("May".toList, 5), ("June".toList, 6),
   ("July".toList, 7), ("August".toList, 8), ("September".toList, 9),
   ("October".toList, 10), ("November".toList, 11), ("December".toList, 12)]

/-- Lookup in an association list with list-of-character keys. -/
def alistLookup (k : List Char) : List (List Char × List Char) → Option (List Char)
  | [] => none
  | (k2, v) :: rest => if k = k2 then some v else alistLookup k rest

/-- Lookup in the month table. -/
def monthsLookup (k : List Char) : List (List Char × Nat) → Option Nat
  | [] => none
  | (k2, v) :: rest => if k = k2 then some v else monthsLookup k rest

/-- Club alias table of Live.py (TEAM_SPECIAL). -/
def TEAM_SPECIAL : List (List Char × List Char) :=
  [("internazionale".toList, "inter".toList),
   ("inter".toList, "inter".toList),
   ("juventus".toList, "juventus".toList),
   ("as roma".toList, "roma".toList),
   ("a.s. roma".toList, "roma".toList),
   ("roma".toList, "roma".toList),
   ("ssc napoli".toList, "napoli".toList),
   ("s.s.c. napoli".toList, "napoli".toList),
   ("napoli".toList, "napoli".toList),
   ("ss lazio".toList, "lazio".toList)]

/-- The ordered alternatives of TEAM_PREFIXES_REGEX, each to be matched
case-insensitively at the start of the team name and followed by at
least one whitespace character. -/
def TEAM_PREFIX_ALTS : List (List Char) :=
  ["a.s.".toList, "as".toList, "a.c.".toList, "ac".toList, "ssc".toList,
   "s.s.c.".toList, "ss".toList, "u.s.".toList, "us".toList, "u.c.".toList,
   "uc".toList, "f.c.".toList, "fc".toList]

/-- Fuel-indexed scanner behind reSubOrd. -/
def reSubOrdF (suf : List Char) : Nat → List Char → List Char
  | 0, s => s
  | _ + 1, [] => []
  | f + 1, c :: rest =>
    if c.isDigit then
      let ds := c :: rest.takeWhile Char.isDigit
      let rest2 := rest.dropWhile Char.isDigit
      if suf ≠ [] ∧ suf.isPrefixOf rest2 then ds ++ reSubOrdF suf f (rest2.drop suf.length)
      else ds ++ reSubOrdF suf f rest2
    else c :: reSubOrdF suf f rest

/-- Models one pass of re.sub removing an ordinal suffix that directly
follows a digit run, as clean_day_string does for st, nd, rd, th:
leftmost, non-overlapping, keeping the digits. -/
def reSubOrd (suf s : List Char) : List Char :=
  reSubOrdF suf s.length s

/-- Models clean_day_string: remove the schedule-time suffix, strip the
four ordinal suffixes after digits, then strip whitespace. -/
def clean_day_string (day : List Char) : List Char :=
  pyStrip (reSubOrd "th".toList (reSubOrd "rd".toList (reSubOrd "nd".toList
    (reSubOrd "st".toList (pyReplace " - Schedule Time UK GMT".toList [] day)))))

/-- Calendar datetime produced by the datetime constructor; seconds and
microseconds are always zero in this pipeline. -/
structure DT where
  year : Nat
  month : Nat
  day : Nat
  hour : Nat
  minute : Nat
deriving DecidableEq, Repr

/-- Current UTC date fields, as read from datetime.utcnow by
parse_event_datetime for its defaults. -/
structure Now where
  year : Nat
  month : Nat
  day : Nat
deriving DecidableEq, Repr

/-- Gregorian leap-year test used by the datetime constructor. -/
def isLeap (y : Int) : Bool :=
  y % 4 = 0 && (y % 100 ≠ 0 || y % 400 = 0)

/-- Days in a month for an in-range month number. -/
def daysInMonth (y m : Int) : Int :=
  if m = 2 then (if isLeap y then 29 else 28)
  else if m = 4 ∨ m = 6 ∨ m = 9 ∨ m = 11 then 30
  else 31

/-- Models the datetime.datetime constructor: in-range arguments give a
value, anything else raises ValueError, modelled as the error case. -/
def mkNaive (y m d h mi : Int) : Except Unit DT :=
  if 1 ≤ y ∧ y ≤ 9999 ∧ 1 ≤ m ∧ m ≤ 12 ∧ 1 ≤ d ∧ d ≤ daysInMonth y m ∧
     0 ≤ h ∧ h ≤ 23 ∧ 0 ≤ mi ∧ mi ≤ 59 then
    .ok ⟨y.toNat, m.toNat, d.toNat, h.toNat, mi.toNat⟩
  else .error ()

/-- The month, day-number and year extraction of parse_event_datetime,
performed on the whitespace tokens of the cleaned day string.  The first
component is the month (always valid when present), the second the day
number, the third the year. -/
def parseDayNums (dayClean : List Char) : Option Nat × Option Int × Option Int :=
  match pySplitWs dayClean with
  | _ :: p1 :: p2 :: p3 :: _ =>
    match monthsLookup p1 MONTHS with
    | some m => (some m, pyIntParse p2, pyIntParse p3)
    | none =>
      match monthsLookup p2 MONTHS with
      | some m => (some m, pyIntParse p1, pyIntParse p3)
      | none => (none, none, none)
  | _ => (none, none, none)

/-- The time-of-day extraction of parse_event_datetime: split on every
colon, require exactly two integer fields, else fall back to midnight. -/
def parseTimeUk (t : List Char) : Int × Int :=
  match pySplitChar ':' t with
  | [a, b] =>
    match pyIntParse a, pyIntParse b with
    | some h, some m => (h, m)
    | _, _ => (0, 0)
  | _ => (0, 0)

/-- Models parse_event_datetime in the environment without timezone
data, where the naive value is treated as already UTC; the error case is
the uncaught ValueError of the datetime constructor. -/
def parse_event_datetime (day_str time_uk : List Char) (now : Now) : Except Unit DT :=
  let nums := parseDayNums (clean_day_string day_str)
  let month : Nat :=
    match nums.1 with
    | some m => m
    | none => now.month
  let daynum : Int := pyOrInt nums.2.1 now.day
  let year : Int := pyOrInt nums.2.2 now.year
  let hm := parseTimeUk time_uk
  mkNaive year (month : Int) daynum hm.1 hm.2

/-- Models str.title for ASCII letters: a letter is upper-cased when the
previous character is not a letter and lower-cased otherwise. -/
def pyTitleGo (prevAlpha : Bool) : List Char → List Char
  | [] => []
  | c :: rest =>
    (if c.isAlpha then (if prevAlpha then c.toLower else c.toUpper) else c) ::
      pyTitleGo c.isAlpha rest

/-- Models str.title starting at a non-letter boundary. -/
def pyTitle (s : List Char) : List Char :=
  pyTitleGo false s

/-- One alternative of TEAM_PREFIXES_REGEX applied at the start of the
stripped team name: the alternative must match case-insensitively and be
followed by at least one whitespace character, which is consumed
greedily together with the prefix. -/
def stripOneAlt (alt s : List Char) : Option (List Char) :=
  if ciPrefixOf alt s then
    let rest := s.drop alt.length
    if rest ≠ [] ∧ isPySpace (rest.headD ' ') then
      some (rest.dropWhile isPySpace)
    else none
  else none

/-- Try the regex alternatives in their source order; the first that
matches with a following whitespace run wins, otherwise the name is
unchanged. -/
def stripAlts (s : List Char) : List (List Char) → List Char
  | [] => s
  | alt :: alts =>
    match stripOneAlt alt s with
    | some r => r
    | none => stripAlts s alts

/-- Models strip_prefixes: strip whitespace, remove one leading club
prefix abbreviation, then drop every standalone word equal to calcio and
re-join with single spaces. -/
def strip_prefixes (team : List Char) : List Char :=
  let t := stripAlts (pyStrip team) TEAM_PREFIX_ALTS
  let words := (pySplitWs t).filter (fun w => w.map Char.toLower ≠ "calcio".toList)
  pyStrip (List.intercalate [' '] words)

/-- Models normalize_team: alias-table lookup on the lower-cased
stripped name, defaulting to the lower-cased stripped name. -/
def normalize_team (team : List Char) : List Char :=
  let base := strip_prefixes team
  let key := base.map Char.toLower
  match alistLookup key TEAM_SPECIAL with
  | some v => v
  | none => key

/-- Match of the vs alternative of MATCH_SPLIT_REGEX at the current
position: previous character not a word character, the letters v and s
case-insensitively, and a word boundary after. -/
def vsMatchHere (prevWord : Bool) : List Char → Bool
  | c1 :: c2 :: rest =>
    !prevWord && c1.toLower = 'v' && c2.toLower = 's' && boundaryAt rest
  | _ => false

/-- Match of the space-dash-space alternative of MATCH_SPLIT_REGEX at
the current position. -/
def dashMatchHere : List Char → Bool
  | c1 :: c2 :: c3 :: _ => c1 = ' ' && c2 = '-' && c3 = ' '
  | _ => false

/-- Fuel-indexed scanner behind the MATCH_SPLIT_REGEX split. -/
def reSplitMatchF : Nat → Bool → List Char → List Char → List (List Char)
  | 0, _, acc, s => [acc.reverse ++ s]
  | _ + 1, _, acc, [] => [acc.reverse]
  | f + 1, prevWord, acc, c :: rest =>
    if vsMatchHere prevWord (c :: rest) then
      acc.reverse :: reSplitMatchF f true [] (rest.drop 1)
    else if dashMatchHere (c :: rest) then
      acc.reverse :: reSplitMatchF f false [] (rest.drop 2)
    else
      reSplitMatchF f (isWordChar c) (c :: acc) rest

/-- Models re.split on MATCH_SPLIT_REGEX: cut the string at every
whole-word vs and at every space-dash-space separator, left to right. -/
def reSplitMatch (s : List Char) : List (List Char) :=
  reSplitMatchF s.length false [] s

/-- Models extract_teams: the first two fields of the regex split, both
stripped, when the split produced at least two fields. -/
def extract_teams (event_name : List Char) : Option (List Char) × Option (List Char) :=
  match reSplitMatch event_name with
  | p0 :: p1 :: _ => (some (pyStrip p0), some (pyStrip p1))
  | _ => (none, none)

/-- The standalone MotoGP token test shared by map_category and
build_logo. -/
def hasMotoGPToken (s : List Char) : Bool :=
  containsTokenCI "motogp".toList s

/-- The standalone F1 or Formula 1 token test shared by map_category and
build_logo. -/
def hasF1Token (s : List Char) : Bool :=
  containsTokenCI "f1".toList s || containsTokenCI "formula 1".toList s

/-- Models build_logo, including the fall-through from a failed Serie
A or B team split to the Serie C test and the final none. -/
def build_logo (category_src raw_event : List Char) : Option (List Char) :=
  match alistLookup category_src COPPA_LOGOS with
  | some fn => some (LOGO_BASE ++ '/' :: fn)
  | none =>
    if category_src = "motor sports".toList ∨ category_src = "motorsports".toList then
      if hasMotoGPToken raw_event then some (LOGO_BASE ++ "/MotoGP.png".toList)
      else if hasF1Token raw_event then some (LOGO_BASE ++ "/F1.png".toList)
      else none
    else if category_src = "Tennis".toList then some (LOGO_BASE ++ "/Tennis.png".toList)
    else
      let fromTeams : Option (List Char) :=
        if category_src = "Italy - Serie A".toList ∨ category_src = "Italy - Serie B".toList then
          match extract_teams raw_event with
          | (some t1, some t2) =>
            if t1 ≠ [] ∧ t2 ≠ [] then
              some (LOGO_BASE ++ '/' :: pyReplace [' '] ['_']
                (pyTitle (normalize_team t1) ++ "_vs_".toList ++
                 pyTitle (normalize_team t2) ++ ".png".toList))
            else none
          | _ => none
        else none
      match fromTeams with
      | some u => some u
      | none =>
        if category_src = "Italy - Serie C".toList ∧
           containsSubstrCI "salernitana".toList raw_event then
          some (LOGO_BASE ++ "/Salernitana.png".toList)
        else none

/-- Models map_category: the label-to-enum mapping with the
MotoGP-before-F1 token tests for the motor-sports labels. -/
def map_category (category_src raw_event : List Char) : Option (List Char) :=
  if category_src = "Italy - Serie A".toList then some "seriea".toList
  else if category_src = "Italy - Serie B".toList then some "serieb".toList
  else if category_src = "Italy - Serie C".toList then some "seriec".toList
  else if (alistLookup category_src COPPA_LOGOS).isSome then some "coppe".toList
  else if category_src = "Tennis".toList then some "tennis".toList
  else if category_src = "motor sports".toList ∨ category_src = "motorsports".toList then
    if hasMotoGPToken raw_event then some "motogp".toList
    else if hasF1Token raw_event then some "f1".toList
    else none
  else none

/-- Match of the Italy dash Serie pattern anywhere, with arbitrary
whitespace around the dash and no word boundaries, case-insensitively;
the final letter distinguishes the three Serie patterns. -/
def italySerieAt (letter : Char) (s : List Char) : Bool :=
  if ciPrefixOf "italy".toList s then
    match (s.drop 5).dropWhile isPySpace with
    | '-' :: r3 => ciPrefixOf ("serie ".toList ++ [letter]) (r3.dropWhile isPySpace)
    | _ => false
  else false

/-- Search the Italy dash Serie pattern at every position. -/
def containsItalySerie (letter : Char) : List Char → Bool
  | [] => false
  | c :: rest => italySerieAt letter (c :: rest) || containsItalySerie letter rest

/-- Models detect_inline_competition: the ordered inline-competition
patterns of the soccer container, first match wins. -/
def detect_inline_competition (event_name : List Char) : Option (List Char) :=
  if containsTokenCI "champions league".toList event_name then some "UEFA Champions League".toList
  else if containsTokenCI "europa league".toList event_name then some "UEFA Europa League".toList
  else if containsTokenCI "conference league".toList event_name then some "Conference League".toList
  else if containsTokenCI "coppa italia".toList event_name then some "Coppa Italia".toList
  else if containsItalySerie 'a' event_name then some "Italy - Serie A".toList
  else if containsItalySerie 'b' event_name then some "Italy - Serie B".toList
  else if containsItalySerie 'c' event_name then some "Italy - Serie C".toList
  else none

/-- Models should_include_channel_text: no exclusion keyword occurs as a
substring of the lower-cased text. -/
def should_include_channel_text (text : List Char) : Bool :=
  !(EXCLUDE_KEYWORDS_CHANNEL.any (fun k => containsSubstr k (text.map Char.toLower)))

/-- Match of the anchored time-prefix regex of extract_event_title: one
or two digits, a colon, two digits, a colon. -/
def reMatchTimePfx : List Char → Bool
  | d1 :: d2 :: c1 :: d3 :: d4 :: c2 :: _ =>
    (d1.isDigit && d2.isDigit && c1 = ':' && d3.isDigit && d4.isDigit && c2 = ':')
    || (d1.isDigit && d2 = ':' && c1.isDigit && d3.isDigit && d4 = ':')
  | [d1, d2, c1, d3, d4] => d1.isDigit && d2 = ':' && c1.isDigit && d3.isDigit && d4 = ':'
  | _ => false

/-- The remainder after the first colon, as str.split with maxsplit one
returns in its second field when a colon is present. -/
def afterFirstColon (s : List Char) : List Char :=
  (s.dropWhile (fun c => c ≠ ':')).drop 1

/-- Models extract_event_title: strip a leading time prefix when the
anchored regex matches, else return the stripped raw title. -/
def extract_event_title (raw_event : List Char) : List Char :=
  if reMatchTimePfx raw_event then pyStrip (afterFirstColon raw_event)
  else pyStrip raw_event

/-- Slug characters of build_event_id. -/
def isSlugChar (c : Char) : Bool :=
  ('a' ≤ c && c ≤ 'z') || ('0' ≤ c && c ≤ '9')

/-- Fuel-indexed scanner behind slugify. -/
def slugifyF : Nat → List Char → List Char
  | 0, s => s
  | _ + 1, [] => []
  | f + 1, c :: rest =>
    if isSlugChar c then c :: slugifyF f rest
    else '-' :: slugifyF f (rest.dropWhile (fun d => !isSlugChar d))

/-- Models the re.sub that replaces every run of non-slug characters
with a single hyphen. -/
def slugify (s : List Char) : List Char :=
  slugifyF s.length s

/-- The strftime year-month-day rendering used by build_event_id. -/
def strftimeYmd (dt : DT) : List Char :=
  pad4 dt.year ++ pad2 dt.month ++ pad2 dt.day

/-- Models build_event_id: lower-case, slugify, strip hyphens, truncate
to sixty characters, append the UTC date. -/
def build_event_id (name : List Char) (dt : DT) : List Char :=
  (pyStripChar '-' (slugify (name.map Char.toLower))).take 60 ++ '-' :: strftimeYmd dt

/-- Fuel-indexed scanner behind stripTags. -/
def stripTagsF : Nat → List Char → List Char
  | 0, s => s
  | _ + 1, [] => []
  | f + 1, c :: rest =>
    if c = '<' then
      match rest.dropWhile (fun d => d ≠ '>') with
      | '>' :: tail =>
        if rest.takeWhile (fun d => d ≠ '>') ≠ [] then stripTagsF f tail
        else c :: stripTagsF f rest
      | _ => c :: stripTagsF f rest
    else c :: stripTagsF f rest

/-- Models removal of HTML tag fragments by the regex that matches a
less-than sign, one or more non-greater-than characters, and a
greater-than sign. -/
def stripTags (s : List Char) : List Char :=
  stripTagsF s.length s

/-- Models clean_category_key: drop the literal closing span fragment,
remove remaining tags, strip whitespace. -/
def clean_category_key (raw : List Char) : List Char :=
  pyStrip (stripTags (pyReplace "</span>".toList [] raw))

/-- A JSON scalar usable as a channel identifier: the feed carries both
strings and numbers there. -/
inductive PyScalar where
  | s (v : List Char)
  | i (v : Int)
deriving DecidableEq, Repr

/-- Python truthiness of a channel-identifier scalar. -/
def scalarTruthy : PyScalar → Bool
  | .s v => v ≠ []
  | .i v => v ≠ 0

/-- Rendering of a channel-identifier scalar inside an f-string. -/
def scalarStr : PyScalar → List Char
  | .s v => v
  | .i v => pyStrOfInt v

/-- One element of the channels list of a raw event: either a mapping
with the optional identifier and display-name fields, or a value of any
other shape, which get_stream_url rejects. -/
inductive ChanItem where
  | mk (channel_id : Option PyScalar) (channel_name : Option (List Char))
  | other
deriving DecidableEq, Repr

/-- A raw event record: the event title, the time string and the
channels list; a missing field is the none case. -/
structure RawEvent where
  event : Option (List Char)
  time : Option (List Char)
  channels : List ChanItem
deriving DecidableEq, Repr

/-- The value under a category key: a list of events, or any non-list
value, which the main loop skips. -/
inductive CatVal where
  | events (l : List RawEvent)
  | notList
deriving DecidableEq, Repr

/-- The value under a day key: a mapping from category labels to
category values, or any non-mapping value, which the main loop skips. -/
inductive DayData where
  | dict (cats : List (List Char × CatVal))
  | other
deriving DecidableEq, Repr

/-- An output record of the pipeline; streams are url-title pairs. -/
structure Entry where
  id : List Char
  name : List Char
  streams : List (List Char × List Char)
  logo : Option (List Char)
  category : List Char
  description : List Char
  eventStart : List Char
deriving DecidableEq, Repr

/-- Models get_stream_url: a mapping with a truthy channel identifier
yields the templated URL, anything else yields none. -/
def get_stream_url : ChanItem → Option (List Char)
  | .mk (some v) _ =>
    if scalarTruthy v then
      some ("https://thedaddy.click/stream/stream-".toList ++ scalarStr v ++ ".php".toList)
    else none
  | _ => none

/-- The channel display name of the main loop: the explicit name when
truthy, else the CH-identifier fallback built from the identifier field
rendered with an empty default. -/
def channelDisplayName : ChanItem → List Char
  | .mk cid cname =>
    match cname with
    | some n => if n ≠ [] then n else "CH-".toList ++ (cid.map scalarStr).getD []
    | none => "CH-".toList ++ (cid.map scalarStr).getD []
  | .other => []

/-- The channel loop of main: keep a channel when it yields a stream URL
and the keyword filter passes on the name, title and category text. -/
def buildStreams (title eff : List Char) : List ChanItem → List (List Char × List Char)
  | [] => []
  | ch :: rest =>
    match get_stream_url ch with
    | none => buildStreams title eff rest
    | some url =>
      let nm := channelDisplayName ch
      if should_include_channel_text (nm ++ ' ' :: title ++ ' ' :: eff) then
        (url, nm) :: buildStreams title eff rest
      else buildStreams title eff rest

/-- The date-time part of the isoformat rendering, before the UTC
offset. -/
def isoCore (dt : DT) : List Char :=
  pad4 dt.year ++ '-' :: pad2 dt.month ++ '-' :: pad2 dt.day ++
  'T' :: pad2 dt.hour ++ ':' :: pad2 dt.minute ++ [':', '0', '0']

/-- The isoformat rendering of an aware UTC datetime with zero seconds
and microseconds. -/
def pyIsoformat (dt : DT) : List Char :=
  isoCore dt ++ ['+', '0', '0', ':', '0', '0']

/-- The eventStart field of an output record: isoformat with the UTC
offset rewritten to the Z suffix. -/
def eventStartString (dt : DT) : List Char :=
  pyReplace ['+', '0', '0', ':', '0', '0'] ['Z'] (pyIsoformat dt)

/-- The human-readable time rendering of the description field in the
environment without timezone data: day-month hour-minute plus the UTC
marker. -/
def romeStr (dt : DT) : List Char :=
  pad2 dt.day ++ '/' :: pad2 dt.month ++ ' ' :: pad2 dt.hour ++ ':' :: pad2 dt.minute ++
  " UTC".toList

/-- The per-event body of the main loop, from the raw-title strip to the
appended entry: none stands for a skipped event, the error case for an
uncaught exception from the datetime constructor. -/
def processGame (day category_src : List Char) (isSoccer whitelisted : Bool)
    (now : Now) (game : RawEvent) : Except Unit (Option Entry) :=
  let raw_event := pyStrip (game.event.getD [])
  if raw_event = [] then .ok none
  else
    let eff? : Option (List Char) :=
      if isSoccer then detect_inline_competition raw_event
      else if whitelisted then some category_src else none
    match eff? with
    | none => .ok none
    | some eff =>
      if eff = "Tennis".toList ∧
         !(containsTokenCI "atp".toList raw_event || containsTokenCI "wta".toList raw_event) then
        .ok none
      else
        match map_category eff raw_event with
        | none => .ok none
        | some mapped =>
          match parse_event_datetime day (game.time.getD "00:00".toList) now with
          | .error e => .error e
          | .ok dt =>
            let title := extract_event_title raw_event
            let streams := buildStreams title eff game.channels
            if streams = [] then .ok none
            else
              .ok (some
                { id := build_event_id title dt
                  name := title
                  streams := streams
                  logo := build_logo eff raw_event
                  category := mapped
                  description := eff ++ ' ' :: romeStr dt
                  eventStart := eventStartString dt })

/-- The inner event loop of main over one category value. -/
def processEvents (day category_src : List Char) (isSoccer whitelisted : Bool)
    (now : Now) : List RawEvent → Except Unit (List Entry)
  | [] => .ok []
  | g :: gs =>
    match processGame day category_src isSoccer whitelisted now g with
    | .error e => .error e
    | .ok none => processEvents day category_src isSoccer whitelisted now gs
    | .ok (some en) =>
      match processEvents day category_src isSoccer whitelisted now gs with
      | .error e => .error e
      | .ok rest => .ok (en :: rest)

/-- The category loop of main over one day mapping: clean the label,
decide the soccer-container and whitelist flags, skip non-list values. -/
def processCats (day : List Char) (now : Now) :
    List (List Char × CatVal) → Except Unit (List Entry)
  | [] => .ok []
  | (catRaw, v) :: rest =>
    match v with
    | .notList => processCats day now rest
    | .events evs =>
      let category_src := clean_category_key catRaw
      let isSoccer := category_src.map Char.toLower = "soccer".toList
      let whitelisted := BASE_CATEGORIES.contains category_src
      match processEvents day category_src isSoccer whitelisted now evs with
      | .error e => .error e
      | .ok l1 =>
        match processCats day now rest with
        | .error e => .error e
        | .ok l2 => .ok (l1 ++ l2)

/-- The day loop of main: skip non-mapping day values. -/
def processDays (now : Now) : List (List Char × DayData) → Except Unit (List Entry)
  | [] => .ok []
  | (day, dd) :: rest =>
    match dd with
    | .other => processDays now rest
    | .dict cats =>
      match processCats day now cats with
      | .error e => .error e
      | .ok l1 =>
        match processDays now rest with
        | .error e => .error e
        | .ok l2 => .ok (l1 ++ l2)

/-- The whole run of main on a decoded schedule document: the list of
output records written to the output file, or the error case when an
exception escapes the per-event processing. -/
def runPipeline (schedule : List (List Char × DayData)) (now : Now) :
    Except Unit (List Entry) :=
  processDays now schedule

/-- The output category enum of the specification. -/
def CATEGORY_ENUM : List (List Char) :=
  ["seriea".toList, "serieb".toList, "seriec".toList, "coppe".toList,
   "tennis".toList, "f1".toList, "motogp".toList]

/-- Validity bounds guaranteed by the datetime constructor. -/
def validDT (dt : DT) : Prop :=
  1 ≤ dt.year ∧ dt.year ≤ 9999 ∧ 1 ≤ dt.month ∧ dt.month ≤ 12 ∧
  1 ≤ dt.day ∧ (dt.day : Int) ≤ daysInMonth dt.year dt.month ∧
  dt.hour ≤ 23 ∧ dt.minute ≤ 59

/-- Validity of a current-date triple, as needed for the datetime
constructor to accept the default components. -/
def nowValid (n : Now) : Prop :=
  1 ≤ n.year ∧ n.year ≤ 9999 ∧ 1 ≤ n.month ∧ n.month ≤ 12 ∧
  1 ≤ n.day ∧ (n.day : Int) ≤ daysInMonth n.year n.month

/-- The record invariant carried by every produced entry: a non-empty
stream list, an enum category, and an identifier and start timestamp
built from the record name and one valid datetime. -/
def GoodEntry (e : Entry) : Prop :=
  e.streams ≠ [] ∧ e.category ∈ CATEGORY_ENUM ∧
  ∃ dt : DT, validDT dt ∧ e.id = build_event_id e.name dt ∧
    e.eventStart = eventStartString dt

/-- A day label whose cleaned form supplies month, day number and year
by itself, leaving no component to the current-date defaults; the zero
checks mirror Python truthiness, under which a parsed zero still selects
the default. -/
def dayIndep (day : List Char) : Bool :=
  match parseDayNums (clean_day_string day) with
  | (some _, some d, some y) => d ≠ 0 && y ≠ 0
  | _ => false

/-- Spec-side shape of a title beginning with digit colon digit digit
colon. -/
def specHMM : List Char → Bool
  | h :: c1 :: m1 :: m2 :: c2 :: _ =>
    h.isDigit && c1 = ':' && m1.isDigit && m2.isDigit && c2 = ':'
  | _ => false

/-- Spec-side shape of a title beginning with digit digit colon digit
digit colon. -/
def specHHMM : List Char → Bool
  | h1 :: h2 :: c1 :: m1 :: m2 :: c2 :: _ =>
    h1.isDigit && h2.isDigit && c1 = ':' && m1.isDigit && m2.isDigit && c2 = ':'
  | _ => false

/-- Spec-side time-prefix test of the title-extraction claim: the raw
title begins with an H colon MM colon or HH colon MM colon prefix. -/
def specTimePfx (s : List Char) : Bool :=
  specHMM s || specHHMM s

/-- Test fixture: a channel with identifier and an ordinary name. -/
def chanSky : ChanItem :=
  .mk (some (.s "123".toList)) (some "Sky Sport 1".toList)

/-- Test fixture: a channel whose name carries an exclusion keyword. -/
def chanYouth : ChanItem :=
  .mk (some (.s "77".toList)) (some "Youth TV".toList)

/-- Test fixture: a fully parseable day label. -/
def dayGood : List Char :=
  "Monday 1st January 2024 - Schedule Time UK GMT".toList

/-- Test fixture: an ordinary Serie A event. -/
def evJuveNapoli : RawEvent :=
  ⟨some "Juventus vs Napoli".toList, some "20:00".toList, [chanSky]⟩

/-- Test fixture: the same event with an out-of-range time string. -/
def evCrash : RawEvent :=
  ⟨some "Juventus vs Napoli".toList, some "99:00".toList, [chanSky]⟩

/-- Test fixture: schedule whose only event carries the out-of-range
time. -/
def schedCrash : List (List Char × DayData) :=
  [("Saturday 1 March 2025 - Schedule Time UK GMT".toList,
    .dict [("Italy - Serie A".toList, .events [evCrash])])]

/-- Test fixture: schedule under a day label that parses to nothing. -/
def schedBadDay : List (List Char × DayData) :=
  [("Bad".toList, .dict [("Italy - Serie A".toList, .events [evJuveNapoli])])]

/-- Test fixture: the same schedule under a fully parseable day label. -/
def schedGoodDay : List (List Char × DayData) :=
  [(dayGood, .dict [("Italy - Serie A".toList, .events [evJuveNapoli])])]

/-- Test fixture: a soccer-container event with an inline Serie A
marker. -/
def evSoccer : RawEvent :=
  ⟨some "Italy - Serie A: Juventus vs Napoli".toList, some "20:00".toList, [chanSky]⟩

/-- Test fixture: schedule with the soccer container category. -/
def schedSoccer : List (List Char × DayData) :=
  [(dayGood, .dict [("Soccer".toList, .events [evSoccer])])]

/-- Test fixture: a soccer-container event matching no inline marker. -/
def evRandomSoccer : RawEvent :=
  ⟨some "Random Match".toList, some "20:00".toList, [chanSky]⟩

/-- Test fixture: a Serie A event whose title has no team separator. -/
def evNoSplit : RawEvent :=
  ⟨some "Standalone Show".toList, some "20:00".toList, [chanSky]⟩

/-- Test fixture: schedule for the failed-team-split case. -/
def schedNoSplit : List (List Char × DayData) :=
  [(dayGood, .dict [("Italy - Serie A".toList, .events [evNoSplit])])]

/-- Test fixture: an event whose only channel carries an exclusion
keyword. -/
def evYouthOnly : RawEvent :=
  ⟨some "Juventus vs Napoli".toList, some "20:00".toList, [chanYouth]⟩

/-- Test fixture: schedule for the zero-surviving-channels case. -/
def schedYouthOnly : List (List Char × DayData) :=
  [(dayGood, .dict [("Italy - Serie A".toList, .events [evYouthOnly])])]

/-- Test fixture: an event with one excluded and one surviving
channel. -/
def evMixed : RawEvent :=
  ⟨some "Juventus vs Napoli".toList, some "20:00".toList, [chanYouth, chanSky]⟩

/-- Test fixture: schedule for the one-channel-dropped case. -/
def schedMixed : List (List Char × DayData) :=
  [(dayGood, .dict [("Italy - Serie A".toList, .events [evMixed])])]

/-- Test fixture: a Tennis event with the ATP token. -/
def evATP : RawEvent :=
  ⟨some "ATP Finals: Sinner vs Alcaraz".toList, some "18:00".toList, [chanSky]⟩

/-- Test fixture: schedule with the tagged Tennis event. -/
def schedTennisATP : List (List Char × DayData) :=
  [(dayGood, .dict [("Tennis".toList, .events [evATP])])]

/-- Test fixture: a Tennis event without the ATP and WTA tokens. -/
def evTennisNoTag : RawEvent :=
  ⟨some "Ligue 1 Tennis Special".toList, some "18:00".toList, [chanSky]⟩

/-- Test fixture: schedule with the untagged Tennis event. -/
def schedTennisNoTag : List (List Char × DayData) :=
  [(dayGood, .dict [("Tennis".toList, .events [evTennisNoTag])])]

/-- Decidable equality for run results, so that concrete runs can be
checked by evaluation. -/
instance {ε α : Type} [DecidableEq ε] [DecidableEq α] : DecidableEq (Except ε α) := fun x y =>
  match x, y with
  | .error a, .error b =>
    if h : a = b then .isTrue (by rw [h]) else .isFalse (by intro hc; injection hc; exact h (by assumption))
  | .ok a, .ok b =>
    if h : a = b then .isTrue (by rw [h]) else .isFalse (by intro hc; injection hc; exact h (by assumption))
  | .error _, .ok _ => .isFalse (by intro hc; exact Except.noConfusion hc)
  | .ok _, .error _ => .isFalse (by intro hc; exact Except.noConfusion hc)

/-- Expected output record for the soccer-container fixture. -/
def entrySoccer : Entry :=
  { id := "italy-serie-a-juventus-vs-napoli-20240101".toList
    name := "Italy - Serie A: Juventus vs Napoli".toList
    streams := [("https://thedaddy.click/stream/stream-123.php".toList, "Sky Sport 1".toList)]
    logo := some "https://raw.githubusercontent.com/qwertyuiop8899/logo/main/Italy_vs_Serie_A:_Juventus.png".toList
    category := "seriea".toList
    description := "Italy - Serie A 01/01 20:00 UTC".toList
    eventStart := "2024-01-01T20:00:00Z".toList }

/-- Expected output record for the failed-team-split fixture. -/
def entryNoSplit : Entry :=
  { id := "standalone-show-20240101".toList
    name := "Standalone Show".toList
    streams := [("https://thedaddy.click/stream/stream-123.php".toList, "Sky Sport 1".toList)]
    logo := none
    category := "seriea".toList
    description := "Italy - Serie A 01/01 20:00 UTC".toList
    eventStart := "2024-01-01T20:00:00Z".toList }

/-- Expected output record for the one-channel-dropped fixture. -/
def entryMixed : Entry :=
  { id := "juventus-vs-napoli-20240101".toList
    name := "Juventus vs Napoli".toList
    streams := [("https://thedaddy.click/stream/stream-123.php".toList, "Sky Sport 1".toList)]
    logo := some "https://raw.githubusercontent.com/qwertyuiop8899/logo/main/Juventus_vs_Napoli.png".toList
    category := "seriea".toList
    description := "Italy - Serie A 01/01 20:00 UTC".toList
    eventStart := "2024-01-01T20:00:00Z".toList }

/-- Expected output record for the tagged Tennis fixture. -/
def entryTennis : Entry :=
  { id := "atp-finals-sinner-vs-alcaraz-20240101".toList
    name := "ATP Finals: Sinner vs Alcaraz".toList
    streams := [("https://thedaddy.click/stream/stream-123.php".toList, "Sky Sport 1".toList)]
    logo := some "https://raw.githubusercontent.com/qwertyuiop8899/logo/main/Tennis.png".toList
    category := "tennis".toList
    description := "Tennis 01/01 18:00 UTC".toList
    eventStart := "2024-01-01T18:00:00Z".toList }

/-- C1. The specification states that per-event parsing anomalies are
never fatal: a malformed time string is said to fall back to midnight
and no exception escapes the top-level run.  The code, however, wraps
only the integer conversions in exception handlers and calls the
datetime constructor unprotected, so the in-shape but out-of-range time
string 99:00 raises an uncaught ValueError and the whole run aborts
without writing output.  This theorem evaluates the run at that failing
input: the result is the error case, not a completed run. -/
theorem liveC1_uncaught_crash :
    runPipeline schedCrash ⟨2024, 5, 10⟩ = .error () ∧
    parse_event_datetime "Saturday 1 March 2025 - Schedule Time UK GMT".toList
      "99:00".toList ⟨2024, 5, 10⟩ = .error () ∧
    parse_event_datetime "Friday 31 February 2024 - Schedule Time UK GMT".toList
      "20:00".toList ⟨2024, 5, 10⟩ = .error () := by
  refine ⟨by decide, by decide, by decide⟩

/-- C2, counterexample. The claim says the output category is f1 if and
only if the title contains a standalone F1 or Formula 1 token; but for a
motor-sports title containing both a MotoGP and an F1 token the code
returns motogp, because the MotoGP test runs first. -/
theorem liveC2_counterexample :
    hasF1Token "F1 MotoGP".toList = true ∧
    map_category "motor sports".toList "F1 MotoGP".toList = some "motogp".toList ∧
    map_category "motor sports".toList "F1 MotoGP".toList ≠ some "f1".toList := by
  refine ⟨by decide, by decide, by decide⟩

/-- C2, amended. For both motor-sports labels, the output category is
motogp exactly when the title contains a standalone MotoGP token; it is
f1 exactly when the title contains a standalone F1 or Formula 1 token
and no MotoGP token; an event matching neither token produces no output
record. -/
theorem liveC2_amended (title : List Char) :
    map_category "motor sports".toList title =
      (if hasMotoGPToken title then some "motogp".toList
       else if hasF1Token title then some "f1".toList else none) ∧
    map_category "motorsports".toList title =
      (if hasMotoGPToken title then some "motogp".toList
       else if hasF1Token title then some "f1".toList else none) := by
  constructor <;> rfl

/-- C4. Day-label parsing: the schedule-time suffix and ordinal
suffixes are removed; both four-token layouts are accepted, with the
example label parsing to month one, day one, year 2024, hour twenty,
minute zero for every current date; month names are matched
case-sensitively; and missing or unparseable components fall back to the
current UTC date fields, with an unparseable time falling back to
midnight. -/
theorem liveC4_day_parsing (now : Now) :
    clean_day_string "Monday 1st January 2024 - Schedule Time UK GMT".toList =
      "Monday 1 January 2024".toList ∧
    parse_event_datetime "Monday 1st January 2024 - Schedule Time UK GMT".toList
      "20:00".toList now = .ok ⟨2024, 1, 1, 20, 0⟩ ∧
    parse_event_datetime "Tuesday March 5th 2025 - Schedule Time UK GMT".toList
      "08:30".toList now = .ok ⟨2025, 3, 5, 8, 30⟩ ∧
    (nowValid now →
      parse_event_datetime "Monday 1st january 2024 - Schedule Time UK GMT".toList
        "20:00".toList now = .ok ⟨now.year, now.month, now.day, 20, 0⟩) ∧
    (nowValid now →
      parse_event_datetime "Garbage".toList "bad-time".toList now =
        .ok ⟨now.year, now.month, now.day, 0, 0⟩) := by
  refine ⟨by decide, by rfl, by rfl, ?_, ?_⟩ <;>
    · intro hv
      obtain ⟨h1, h2, h3, h4, h5, h6⟩ := hv
      show mkNaive now.year now.month now.day _ _ = _
      unfold mkNaive
      rw [if_pos ⟨by omega, by omega, by omega, by omega, by omega, h6, by decide, by decide,
        by decide, by decide⟩]
      simp [Int.toNat_natCast]
      exact ⟨by decide, by decide⟩

/-- C4, witness. The defaulting branches of the theorem instantiated at
a concrete current date. -/
theorem liveC4_day_parsing_witness :
    parse_event_datetime "Garbage".toList "bad-time".toList ⟨2030, 6, 15⟩ =
      .ok ⟨2030, 6, 15, 0, 0⟩ :=
  (liveC4_day_parsing ⟨2030, 6, 15⟩).2.2.2.2
    ⟨by decide, by decide, by decide, by decide, by decide, by decide⟩

/-- The anchored time-prefix regex accepts exactly the spec-side H
colon MM colon and HH colon MM colon shapes. -/
theorem reMatchTimePfx_eq_spec (raw : List Char) :
    reMatchTimePfx raw = specTimePfx raw := by
  rcases raw with _ | ⟨a, _ | ⟨b, _ | ⟨c, _ | ⟨d, _ | ⟨e, _ | ⟨f, rest⟩⟩⟩⟩⟩⟩
  · rfl
  · rfl
  · rfl
  · rfl
  · rfl
  · simp only [reMatchTimePfx, specTimePfx, specHMM, specHHMM, Bool.or_false]
  · simp only [reMatchTimePfx, specTimePfx, specHMM, specHHMM]
    rw [Bool.or_comm]

/-- C9. Title extraction: a raw title beginning with an H colon MM
colon or HH colon MM colon prefix is replaced by the remainder after the
first colon, stripped of whitespace; any other raw title is used
verbatim after stripping.  The concrete cases display both branches,
including the boundary case where the remainder after the first colon
still carries part of the time prefix. -/
theorem liveC9_title_extraction (raw : List Char) :
    (extract_event_title raw =
      if specTimePfx raw then pyStrip (afterFirstColon raw) else pyStrip raw) ∧
    extract_event_title "20:00: Juventus vs Inter".toList = "00: Juventus vs Inter".toList ∧
    extract_event_title "9:30: Foo".toList = "30: Foo".toList ∧
    extract_event_title "  Juventus vs Inter  ".toList = "Juventus vs Inter".toList ∧
    extract_event_title "7:5: X".toList = "7:5: X".toList ∧
    extract_event_title "123:45: Y".toList = "123:45: Y".toList := by
  refine ⟨?_, by decide, by decide, by decide, by decide, by decide⟩
  unfold extract_event_title
  rw [reMatchTimePfx_eq_spec]

/-- C5. Soccer container: under a label whose cleaned form equals
soccer case-insensitively, an event matching no inline competition
marker is excluded entirely; the ordered marker list gives Champions
League priority over Coppa Italia; and the Serie A example is
reclassified to the Serie A label and mapped to the seriea output
category, as the concrete run shows. -/
theorem liveC5_soccer_container (day cat : List Char) (wl : Bool) (now : Now) (g : RawEvent) :
    (detect_inline_competition (pyStrip (g.event.getD [])) = none →
      processGame day cat true wl now g = .ok none) ∧
    detect_inline_competition "Italy - Serie A: Juventus vs Napoli".toList =
      some "Italy - Serie A".toList ∧
    map_category "Italy - Serie A".toList "Italy - Serie A: Juventus vs Napoli".toList =
      some "seriea".toList ∧
    detect_inline_competition "Coppa Italia vs Champions League special".toList =
      some "UEFA Champions League".toList ∧
    detect_inline_competition "Random Match".toList = none ∧
    runPipeline schedSoccer ⟨2024, 5, 10⟩ = .ok [entrySoccer] ∧
    entrySoccer.category = "seriea".toList := by
  refine ⟨?_, by decide, by decide, by decide, by decide, by decide, by decide⟩
  intro h
  simp only [processGame]
  by_cases hr : pyStrip (g.event.getD []) = []
  · simp [hr]
  · simp [hr, h]

/-- C5, witness. A soccer-container event matching no marker is
excluded. -/
theorem liveC5_soccer_container_witness :
    processGame "AnyDay".toList "Soccer".toList true false ⟨2024, 1, 1⟩ evRandomSoccer =
      .ok none :=
  (liveC5_soccer_container "AnyDay".toList "Soccer".toList false ⟨2024, 1, 1⟩
    evRandomSoccer).1 (by decide)

set_option maxHeartbeats 2000000 in
/-- C10. Tennis gate: an event under the whitelisted Tennis label whose
title carries no standalone ATP or WTA token produces no output record;
the tagged concrete event produces a record with output category tennis,
the untagged one produces nothing. -/
theorem liveC10_tennis_gate (day : List Char) (now : Now) (g : RawEvent) :
    ((containsTokenCI "atp".toList (pyStrip (g.event.getD [])) ||
      containsTokenCI "wta".toList (pyStrip (g.event.getD []))) = false →
      processGame day "Tennis".toList false true now g = .ok none) ∧
    runPipeline schedTennisATP ⟨2024, 5, 10⟩ = .ok [entryTennis] ∧
    entryTennis.category = "tennis".toList ∧
    runPipeline schedTennisNoTag ⟨2024, 5, 10⟩ = .ok [] := by
  refine ⟨?_, by decide, by decide, by decide⟩
  intro h
  simp only [processGame]
  by_cases hr : pyStrip (g.event.getD []) = []
  · simp [hr]
  · simp_all

/-- C10, witness. The untagged Tennis event is dropped by the gate. -/
theorem liveC10_tennis_gate_witness :
    processGame dayGood "Tennis".toList false true ⟨2024, 5, 10⟩ evTennisNoTag = .ok none :=
  (liveC10_tennis_gate dayGood ⟨2024, 5, 10⟩ evTennisNoTag).1 (by decide)

set_option maxHeartbeats 2000000 in
/-- C6. Serie A and B logos: when the title splits into exactly two
nonempty team segments, the logo is the underscore-joined, title-cased
pair of normalized team names; when the split fails the logo is none;
the concrete example yields teams roma and inter and the expected
filename; and a failed split does not block the event, as the concrete
run with a logo-less record shows. -/
theorem liveC6_team_logo (t a b : List Char) :
    (extract_teams t = (some a, some b) → a ≠ [] → b ≠ [] →
      build_logo "Italy - Serie A".toList t =
        some (LOGO_BASE ++ '/' :: pyReplace [' '] ['_']
          (pyTitle (normalize_team a) ++ "_vs_".toList ++
           pyTitle (normalize_team b) ++ ".png".toList))) ∧
    (extract_teams t = (none, none) →
      build_logo "Italy - Serie A".toList t = none ∧
      build_logo "Italy - Serie B".toList t = none) ∧
    normalize_team "AS Roma".toList = "roma".toList ∧
    normalize_team "FC Internazionale".toList = "inter".toList ∧
    build_logo "Italy - Serie A".toList "AS Roma vs FC Internazionale".toList =
      some (LOGO_BASE ++ "/Roma_vs_Inter.png".toList) ∧
    runPipeline schedNoSplit ⟨2024, 5, 10⟩ = .ok [entryNoSplit] ∧
    entryNoSplit.logo = none := by
  refine ⟨?_, ?_, by decide, by decide, by decide, by decide, by decide⟩
  · intro hsplit ha hb
    simp [build_logo, alistLookup, hsplit, ha, hb]
  · intro hsplit
    constructor <;> simp [build_logo, alistLookup, hsplit]

/-- C6, witness. The general Serie A logo construction applied to the
concrete round-trip example. -/
theorem liveC6_team_logo_witness :
    build_logo "Italy - Serie A".toList "AS Roma vs FC Internazionale".toList =
      some (LOGO_BASE ++ '/' :: pyReplace [' '] ['_']
        (pyTitle (normalize_team "AS Roma".toList) ++ "_vs_".toList ++
         pyTitle (normalize_team "FC Internazionale".toList) ++ ".png".toList)) :=
  (liveC6_team_logo "AS Roma vs FC Internazionale".toList "AS Roma".toList
    "FC Internazionale".toList).1 (by decide) (by decide) (by decide)

/-- The channel loop distributes over list concatenation. -/
theorem buildStreams_append (title eff : List Char) (l1 l2 : List ChanItem) :
    buildStreams title eff (l1 ++ l2) =
      buildStreams title eff l1 ++ buildStreams title eff l2 := by
  induction l1 with
  | nil => rfl
  | cons ch rest ih =>
    simp only [List.cons_append, buildStreams]
    cases h : get_stream_url ch with
    | none => exact ih
    | some url =>
      show (if should_include_channel_text (channelDisplayName ch ++ ' ' :: title ++ ' ' :: eff) = true
            then (url, channelDisplayName ch) :: buildStreams title eff (rest ++ l2)
            else buildStreams title eff (rest ++ l2)) =
           (if should_include_channel_text (channelDisplayName ch ++ ' ' :: title ++ ' ' :: eff) = true
            then (url, channelDisplayName ch) :: buildStreams title eff rest
            else buildStreams title eff rest) ++ buildStreams title eff l2
      by_cases hp :
        should_include_channel_text (channelDisplayName ch ++ ' ' :: title ++ ' ' :: eff) = true
      · rw [if_pos hp, if_pos hp, ih]
        rfl
      · rw [if_neg hp, if_neg hp, ih]

/-- C7. Channel filtering: a channel whose combined name, title and
category text matches an exclusion keyword is dropped from the stream
list without disturbing the channels around it; an event whose only
channel is excluded survives no channel and produces no record, while an
event with one excluded and one clean channel keeps exactly the clean
stream, as the concrete runs show. -/
theorem liveC7_channel_filter (title eff : List Char) (pre post : List ChanItem)
    (ch : ChanItem) :
    (should_include_channel_text (channelDisplayName ch ++ ' ' :: title ++ ' ' :: eff) = false →
      buildStreams title eff (pre ++ ch :: post) =
        buildStreams title eff pre ++ buildStreams title eff post) ∧
    runPipeline schedYouthOnly ⟨2024, 5, 10⟩ = .ok [] ∧
    runPipeline schedMixed ⟨2024, 5, 10⟩ = .ok [entryMixed] ∧
    entryMixed.streams =
      [("https://thedaddy.click/stream/stream-123.php".toList, "Sky Sport 1".toList)] := by
  refine ⟨?_, by decide, by decide, by decide⟩
  intro hk
  rw [buildStreams_append]
  suffices hdrop : buildStreams title eff (ch :: post) = buildStreams title eff post by
    rw [hdrop]
  simp only [buildStreams]
  cases h : get_stream_url ch with
  | none => rfl
  | some url =>
    exact if_neg (by simp only [Bool.not_eq_true]; exact hk)

/-- C7, witness. Dropping the keyword-matching channel between two clean
channels. -/
theorem liveC7_channel_filter_witness :
    buildStreams "Juventus vs Napoli".toList "Italy - Serie A".toList
        ([chanSky] ++ chanYouth :: [chanSky]) =
      buildStreams "Juventus vs Napoli".toList "Italy - Serie A".toList [chanSky] ++
      buildStreams "Juventus vs Napoli".toList "Italy - Serie A".toList [chanSky] :=
  (liveC7_channel_filter "Juventus vs Napoli".toList "Italy - Serie A".toList
    [chanSky] [chanSky] chanYouth).1 (by decide)

/-- For a day label that supplies all of month, day and year, the parsed
datetime does not depend on the current date. -/
theorem parse_event_datetime_indep (day t : List Char) (n1 n2 : Now)
    (h : dayIndep day = true) :
    parse_event_datetime day t n1 = parse_event_datetime day t n2 := by
  unfold dayIndep at h
  unfold parse_event_datetime
  rcases hp : parseDayNums (clean_day_string day) with ⟨m?, d?, y?⟩
  rw [hp] at h
  cases m? with
  | none => simp at h
  | some m =>
    cases d? with
    | none => simp at h
    | some d =>
      cases y? with
      | none => simp at h
      | some y =>
        simp only [Bool.and_eq_true, decide_eq_true_eq] at h
        simp only [pyOrInt, if_neg h.1, if_neg h.2]

/-- The per-event processing does not depend on the current date when
the day label supplies all components. -/
theorem processGame_indep (day cat : List Char) (isS wl : Bool) (n1 n2 : Now)
    (g : RawEvent) (h : dayIndep day = true) :
    processGame day cat isS wl n1 g = processGame day cat isS wl n2 g := by
  have hp : ∀ t, parse_event_datetime day t n1 = parse_event_datetime day t n2 :=
    fun t => parse_event_datetime_indep day t n1 n2 h
  simp only [processGame, hp]

/-- The event loop does not depend on the current date when the day
label supplies all components. -/
theorem processEvents_indep (day cat : List Char) (isS wl : Bool) (n1 n2 : Now)
    (gs : List RawEvent) (h : dayIndep day = true) :
    processEvents day cat isS wl n1 gs = processEvents day cat isS wl n2 gs := by
  induction gs with
  | nil => rfl
  | cons g rest ih =>
    simp only [processEvents, processGame_indep day cat isS wl n1 n2 g h, ih]

/-- The category loop does not depend on the current date when the day
label supplies all components. -/
theorem processCats_indep (day : List Char) (n1 n2 : Now)
    (cats : List (List Char × CatVal)) (h : dayIndep day = true) :
    processCats day n1 cats = processCats day n2 cats := by
  induction cats with
  | nil => rfl
  | cons c rest ih =>
    rcases c with ⟨catRaw, v⟩
    cases v with
    | notList => simp only [processCats, ih]
    | events evs =>
      simp only [processCats, ih, processEvents_indep day _ _ _ n1 n2 evs h]

/-- The day loop does not depend on the current date when every day
label supplies all components. -/
theorem processDays_indep (n1 n2 : Now) (sched : List (List Char × DayData))
    (h : ∀ p ∈ sched, dayIndep p.1 = true) :
    processDays n1 sched = processDays n2 sched := by
  induction sched with
  | nil => rfl
  | cons p rest ih =>
    rcases p with ⟨day, dd⟩
    have hday : dayIndep day = true := h ⟨day, dd⟩ (by simp)
    have hrest : ∀ q ∈ rest, dayIndep q.1 = true := fun q hq => h q (by simp [hq])
    cases dd with
    | other => simp only [processDays, ih hrest]
    | dict cats =>
      simp only [processDays, ih hrest, processCats_indep day n1 n2 cats hday]

/-- C3, counterexample. The claim says every output field derives
purely from the input document; but under a day label that parses to
nothing the current UTC date fills the defaults, so the same document
run on two different dates produces different output. -/
theorem liveC3_counterexample :
    runPipeline schedBadDay ⟨2024, 5, 10⟩ ≠ runPipeline schedBadDay ⟨2024, 5, 11⟩ := by
  decide

/-- C3, amended. Idempotence holds exactly on documents whose day
labels all supply month, day number and year themselves: for such
documents the run is a pure function of the document, and running twice
on the same document, on any two current dates, gives identical
output. -/
theorem liveC3_idempotence_amended (sched : List (List Char × DayData)) (n1 n2 : Now)
    (h : ∀ p ∈ sched, dayIndep p.1 = true) :
    runPipeline sched n1 = runPipeline sched n2 := by
  unfold runPipeline
  exact processDays_indep n1 n2 sched h

/-- C3, witness. The fully dated schedule gives the same output on two
different run dates. -/
theorem liveC3_idempotence_amended_witness :
    runPipeline schedGoodDay ⟨2024, 5, 10⟩ = runPipeline schedGoodDay ⟨2024, 5, 11⟩ :=
  liveC3_idempotence_amended schedGoodDay ⟨2024, 5, 10⟩ ⟨2024, 5, 11⟩ (by decide)

/-- Every case of the digit-character table is a decimal digit. -/
theorem digitChar_isDigit (k : Nat) : (digitChar k).isDigit = true := by
  unfold digitChar
  split <;> decide

/-- Every character of a fuel-rendered numeral is a decimal digit. -/
theorem natDigitsF_isDigit (f : Nat) : ∀ (n : Nat) (c : Char),
    c ∈ natDigitsF f n → c.isDigit = true := by
  induction f with
  | zero => intro n c hc; simp [natDigitsF] at hc
  | succ f ih =>
    intro n c hc
    unfold natDigitsF at hc
    by_cases h : n < 10
    · rw [if_pos h] at hc
      simp only [List.mem_singleton] at hc
      subst hc
      exact digitChar_isDigit n
    · rw [if_neg h] at hc
      rcases List.mem_append.mp hc with hc | hc
      · exact ih _ c hc
      · simp only [List.mem_singleton] at hc
        subst hc
        exact digitChar_isDigit _

/-- Every character of a rendered numeral is a decimal digit. -/
theorem natDigits_isDigit (n : Nat) (c : Char) (hc : c ∈ natDigits n) :
    c.isDigit = true :=
  natDigitsF_isDigit _ _ c hc

/-- Every character of a two-padded numeral is a decimal digit. -/
theorem pad2_isDigit (n : Nat) (c : Char) (hc : c ∈ pad2 n) : c.isDigit = true := by
  unfold pad2 at hc
  rcases List.mem_append.mp hc with h | h
  · rw [List.eq_of_mem_replicate h]; decide
  · exact natDigits_isDigit n c h

/-- Every character of a four-padded numeral is a decimal digit. -/
theorem pad4_isDigit (n : Nat) (c : Char) (hc : c ∈ pad4 n) : c.isDigit = true := by
  unfold pad4 at hc
  rcases List.mem_append.mp hc with h | h
  · rw [List.eq_of_mem_replicate h]; decide
  · exact natDigits_isDigit n c h

/-- A decimal digit is neither the plus sign nor the dot. -/
theorem isDigit_ne_plus_dot (c : Char) (h : c.isDigit = true) : c ≠ '+' ∧ c ≠ '.' := by
  constructor <;> intro he <;> subst he <;> exact absurd h (by decide)

/-- No character of the date-time part of an isoformat string is the
plus sign or the dot. -/
theorem isoCore_chars (dt : DT) (c : Char) (hc : c ∈ isoCore dt) :
    c ≠ '+' ∧ c ≠ '.' := by
  unfold isoCore at hc
  rcases List.mem_append.mp hc with h | h
  swap
  · fin_cases h <;> exact ⟨by decide, by decide⟩
  rcases List.mem_append.mp h with h | h
  swap
  · rcases List.mem_cons.mp h with h | h
    · subst h; exact ⟨by decide, by decide⟩
    · exact isDigit_ne_plus_dot c (pad2_isDigit _ c h)
  rcases List.mem_append.mp h with h | h
  swap
  · rcases List.mem_cons.mp h with h | h
    · subst h; exact ⟨by decide, by decide⟩
    · exact isDigit_ne_plus_dot c (pad2_isDigit _ c h)
  rcases List.mem_append.mp h with h | h
  swap
  · rcases List.mem_cons.mp h with h | h
    · subst h; exact ⟨by decide, by decide⟩
    · exact isDigit_ne_plus_dot c (pad2_isDigit _ c h)
  rcases List.mem_append.mp h with h | h
  · exact isDigit_ne_plus_dot c (pad4_isDigit _ c h)
  · rcases List.mem_cons.mp h with h | h
    · subst h; exact ⟨by decide, by decide⟩
    · exact isDigit_ne_plus_dot c (pad2_isDigit _ c h)

/-- The scanner is the identity on the empty string at any fuel. -/
theorem pyReplaceF_nil (pat repl : List Char) (f : Nat) :
    pyReplaceF pat repl f [] = [] := by
  cases f <;> rfl

/-- Replacing the offset pattern in a string that consists of a
plus-free part followed by the pattern itself rewrites exactly the
trailing pattern. -/
theorem pyReplaceF_offset (s : List Char) (f : Nat) (hplus : ∀ c ∈ s, c ≠ '+')
    (hf : s.length + 6 ≤ f) :
    pyReplaceF ['+', '0', '0', ':', '0', '0'] ['Z'] f
      (s ++ ['+', '0', '0', ':', '0', '0']) = s ++ ['Z'] := by
  induction s generalizing f with
  | nil =>
    match f, hf with
    | f1 + 1, _ =>
      show pyReplaceF ['+', '0', '0', ':', '0', '0'] ['Z'] (f1 + 1)
        ('+' :: ['0', '0', ':', '0', '0']) = ['Z']
      unfold pyReplaceF
      rw [if_pos ⟨by decide, by decide⟩]
      simp [pyReplaceF_nil]
  | cons c rest ih =>
    match f, hf with
    | f1 + 1, hf =>
      have hc : c ≠ '+' := hplus c (by simp)
      show pyReplaceF ['+', '0', '0', ':', '0', '0'] ['Z'] (f1 + 1)
        (c :: (rest ++ ['+', '0', '0', ':', '0', '0'])) = c :: (rest ++ ['Z'])
      unfold pyReplaceF
      rw [if_neg ?hneg]
      case hneg =>
        rintro ⟨-, hpre⟩
        simp only [List.isPrefixOf, Bool.and_eq_true, beq_iff_eq] at hpre
        exact hc hpre.1.symm
      refine congrArg (List.cons c) (ih f1 (fun d hd => hplus d (List.mem_cons_of_mem c hd)) ?_)
      simp only [List.length_cons] at hf
      omega

/-- The eventStart string is the date-time part followed by the Z
suffix. -/
theorem eventStartString_shape (dt : DT) :
    eventStartString dt = isoCore dt ++ ['Z'] := by
  unfold eventStartString pyReplace pyIsoformat
  exact pyReplaceF_offset (isoCore dt) _
    (fun c hc => (isoCore_chars dt c hc).1)
    (by simp [List.length_append])

/-- A string whose characters avoid the plus sign does not contain the
offset pattern. -/
theorem containsSubstr_offset_false (s : List Char) (h : ∀ c ∈ s, c ≠ '+') :
    containsSubstr ['+', '0', '0', ':', '0', '0'] s = false := by
  induction s with
  | nil => rfl
  | cons c rest ih =>
    unfold containsSubstr
    have hc : c ≠ '+' := h c (by simp)
    have hpre : List.isPrefixOf ['+', '0', '0', ':', '0', '0'] (c :: rest) = false := by
      simp only [List.isPrefixOf, Bool.and_eq_false_iff]
      left
      exact beq_eq_false_iff_ne.mpr (Ne.symm hc)
    rw [hpre, ih (fun d hd => h d (List.mem_cons_of_mem c hd))]
    rfl

/-- The start-timestamp string of any datetime ends in Z, never
contains the plus-zero offset, and has no dot. -/
theorem eventStart_props (dt : DT) :
    (eventStartString dt).getLast? = some 'Z' ∧
    containsSubstr ['+', '0', '0', ':', '0', '0'] (eventStartString dt) = false ∧
    (∀ c ∈ eventStartString dt, c ≠ '.') := by
  rw [eventStartString_shape]
  refine ⟨List.getLast?_concat _, ?_, ?_⟩
  · refine containsSubstr_offset_false _ ?_
    intro c hc
    rcases List.mem_append.mp hc with h | h
    · exact (isoCore_chars dt c h).1
    · simp only [List.mem_singleton] at h; subst h; decide
  · intro c hc
    rcases List.mem_append.mp hc with h | h
    · exact (isoCore_chars dt c h).2
    · simp only [List.mem_singleton] at h; subst h; decide

/-- A datetime accepted by the constructor satisfies the calendar
bounds. -/
theorem mkNaive_ok_valid (y m d h mi : Int) (dt : DT)
    (hk : mkNaive y m d h mi = .ok dt) : validDT dt := by
  unfold mkNaive at hk
  split at hk
  · rename_i hcond
    obtain ⟨h1, h2, h3, h4, h5, h6, h7, h8, h9, h10⟩ := hcond
    injection hk with hk
    subst hk
    refine ⟨?_, ?_, ?_, ?_, ?_, ?_, ?_, ?_⟩
    · show 1 ≤ y.toNat
      omega
    · show y.toNat ≤ 9999
      omega
    · show 1 ≤ m.toNat
      omega
    · show m.toNat ≤ 12
      omega
    · show 1 ≤ d.toNat
      omega
    · show ((d.toNat : Int)) ≤ daysInMonth ((y.toNat : Int)) ((m.toNat : Int))
      rw [show ((y.toNat : Int)) = y by omega, show ((m.toNat : Int)) = m by omega,
        show ((d.toNat : Int)) = d by omega]
      exact h6
    · show h.toNat ≤ 23
      omega
    · show mi.toNat ≤ 59
      omega
  · exact absurd hk (by simp)

/-- A parsed event datetime satisfies the calendar bounds. -/
theorem parse_ok_valid (day t : List Char) (now : Now) (dt : DT)
    (h : parse_event_datetime day t now = .ok dt) : validDT dt := by
  unfold parse_event_datetime at h
  exact mkNaive_ok_valid _ _ _ _ _ dt h

/-- The category mapping only produces the six enum values. -/
theorem map_category_mem (c r v : List Char) (h : map_category c r = some v) :
    v ∈ CATEGORY_ENUM := by
  unfold map_category at h
  split_ifs at h
  all_goals first
    | (injection h with h2; subst h2; decide)
    | simp at h

/-- A produced entry satisfies the record invariant. -/
theorem processGame_ok_good (day cat : List Char) (isS wl : Bool) (now : Now)
    (g : RawEvent) (e : Entry)
    (h : processGame day cat isS wl now g = .ok (some e)) : GoodEntry e := by
  simp only [processGame] at h
  split at h
  · exact absurd h (by simp)
  · split at h
    · exact absurd h (by simp)
    · split at h
      · exact absurd h (by simp)
      · split at h
        · exact absurd h (by simp)
        · rename_i mapped hmap
          split at h
          · exact absurd h (by simp)
          · rename_i dt hparse
            split at h
            · exact absurd h (by simp)
            · rename_i hstreams
              injection h with h1
              injection h1 with h2
              subst h2
              exact ⟨hstreams, map_category_mem _ _ _ hmap,
                dt, parse_ok_valid _ _ _ _ hparse, rfl, rfl⟩

/-- Every entry produced by the event loop satisfies the record
invariant. -/
theorem processEvents_ok_good (day cat : List Char) (isS wl : Bool) (now : Now)
    (gs : List RawEvent) (l : List Entry)
    (h : processEvents day cat isS wl now gs = .ok l) :
    ∀ e ∈ l, GoodEntry e := by
  induction gs generalizing l with
  | nil =>
    simp only [processEvents] at h
    injection h with h1
    subst h1
    simp
  | cons g rest ih =>
    simp only [processEvents] at h
    split at h
    · exact absurd h (by simp)
    · exact ih _ h
    · rename_i en hg
      split at h
      · exact absurd h (by simp)
      · rename_i rest2 hrest
        injection h with h1
        subst h1
        intro e he
        rcases List.mem_cons.mp he with he | he
        · subst he
          exact processGame_ok_good _ _ _ _ _ _ _ hg
        · exact ih _ hrest e he

/-- Every entry produced by the category loop satisfies the record
invariant. -/
theorem processCats_ok_good (day : List Char) (now : Now)
    (cats : List (List Char × CatVal)) (l : List Entry)
    (h : processCats day now cats = .ok l) :
    ∀ e ∈ l, GoodEntry e := by
  induction cats generalizing l with
  | nil =>
    simp only [processCats] at h
    injection h with h1
    subst h1
    simp
  | cons c rest ih =>
    rcases c with ⟨catRaw, v⟩
    cases v with
    | notList =>
      simp only [processCats] at h
      exact ih _ h
    | events evs =>
      simp only [processCats] at h
      split at h
      · exact absurd h (by simp)
      · rename_i l1 h1
        split at h
        · exact absurd h (by simp)
        · rename_i l2 h2
          injection h with h3
          subst h3
          intro e he
          rcases List.mem_append.mp he with he | he
          · exact processEvents_ok_good _ _ _ _ _ _ _ h1 e he
          · exact ih _ h2 e he

/-- Every entry produced by the day loop satisfies the record
invariant. -/
theorem processDays_ok_good (now : Now) (sched : List (List Char × DayData))
    (l : List Entry) (h : processDays now sched = .ok l) :
    ∀ e ∈ l, GoodEntry e := by
  induction sched generalizing l with
  | nil =>
    simp only [processDays] at h
    injection h with h1
    subst h1
    simp
  | cons p rest ih =>
    rcases p with ⟨day, dd⟩
    cases dd with
    | other =>
      simp only [processDays] at h
      exact ih _ h
    | dict cats =>
      simp only [processDays] at h
      split at h
      · exact absurd h (by simp)
      · rename_i l1 h1
        split at h
        · exact absurd h (by simp)
        · rename_i l2 h2
          injection h with h3
          subst h3
          intro e he
          rcases List.mem_append.mp he with he | he
          · exact processCats_ok_good _ _ _ _ h1 e he
          · exact ih _ h2 e he

/-- C8. Every record written by a completed run has a non-empty stream
list; a category among the six enum values; an identifier equal to the
slug of its own name followed by the record datetime rendered as an
eight-digit date; and a start timestamp that ends in Z, never contains
the plus-zero offset, and has no fractional-second dot. -/
theorem liveC8_record_invariants (sched : List (List Char × DayData)) (now : Now)
    (entries : List Entry) (h : runPipeline sched now = .ok entries) :
    ∀ e ∈ entries,
      e.streams ≠ [] ∧ e.category ∈ CATEGORY_ENUM ∧
      (∃ dt : DT, validDT dt ∧ e.id = build_event_id e.name dt ∧
        e.eventStart = eventStartString dt) ∧
      containsSubstr "+00:00".toList e.eventStart = false ∧
      (∀ c ∈ e.eventStart, c ≠ '.') ∧
      e.eventStart.getLast? = some 'Z' := by
  intro e he
  obtain ⟨h1, h2, dt, hv, hid, hes⟩ := processDays_ok_good now sched entries h e he
  have hp := eventStart_props dt
  exact ⟨h1, h2, ⟨dt, hv, hid, hes⟩,
    by rw [hes]; exact hp.2.1,
    by rw [hes]; exact hp.2.2,
    by rw [hes]; exact hp.1⟩

/-- C8, witness. The invariants instantiated on the record produced by
the concrete Tennis run. -/
theorem liveC8_record_invariants_witness :
    entryTennis.streams ≠ [] ∧ entryTennis.category ∈ CATEGORY_ENUM ∧
    (∃ dt : DT, validDT dt ∧ entryTennis.id = build_event_id entryTennis.name dt ∧
      entryTennis.eventStart = eventStartString dt) ∧
    containsSubstr "+00:00".toList entryTennis.eventStart = false ∧
    (∀ c ∈ entryTennis.eventStart, c ≠ '.') ∧
    entryTennis.eventStart.getLast? = some 'Z' :=
  liveC8_record_invariants schedTennisATP ⟨2024, 5, 10⟩ [entryTennis] (by decide)
    entryTennis (by simp)

end LivePy
